import Mathlib

/-!
Shallow embedding of `drivers/base/power/domain_governor.c` (PM domain
governors) and proofs of the specification claims about it.

Machine integers (`s64`, `s32`) are modelled as `Int`; none of the code paths
involved rely on wrap-around, and all values handled stay far below 2^63.
Pointer-linked structures are modelled by value: a device carries the list of
its device-tree children (only the fields `dev_update_qos_constraint` reads),
a domain carries the `max_off_time_ns` values of its subdomains and the
`effective_constraint_ns` values of its member devices (again, exactly the
fields the C code reads), and the parents touched by `default_power_down_ok`
are passed alongside explicitly.  In-place mutation of a record becomes
returning an updated record.
-/

namespace DomainGovernor

/-- Nanoseconds per microsecond, `NSEC_PER_USEC` from the kernel time headers. -/
def NSEC_PER_USEC : Int := 1000

/-- Modelled from the spec: the "no constraint" / UNCONSTRAINED sentinel of a
device resume-latency QoS value, in microseconds.  The header `pm_qos.h` is not
under `src/`; it defines this constant as `S32_MAX`. -/
def PM_QOS_RESUME_LATENCY_NO_CONSTRAINT : Int := 2147483647

/-- Modelled from the spec: the UNCONSTRAINED sentinel in nanoseconds,
`PM_QOS_RESUME_LATENCY_NO_CONSTRAINT * NSEC_PER_USEC` in `pm_qos.h`. -/
def PM_QOS_RESUME_LATENCY_NO_CONSTRAINT_NS : Int :=
  PM_QOS_RESUME_LATENCY_NO_CONSTRAINT * NSEC_PER_USEC

/-- A device-tree child of a device, restricted to the fields
`dev_update_qos_constraint` reads: whether it has domain data
(`dev->power.subsys_data && dev->power.subsys_data->domain_data`), its
`td.effective_constraint_ns`, and its current `DEV_PM_QOS_RESUME_LATENCY`
QoS value in microseconds. -/
structure ChildDev where
  has_domain_data : Bool
  effective_constraint_ns : Int
  qos_resume_latency_us : Int
deriving DecidableEq

/-- Embedding of `dev_update_qos_constraint`: fold one device-tree child into
the running constraint accumulator `constraint_ns_p` (the C code passes the
accumulator by pointer; here it is the argument and the result). -/
def dev_update_qos_constraint (dev : ChildDev) (constraint_ns_p : Int) : Int :=
  let constraint_ns :=
    if dev.has_domain_data then
      dev.effective_constraint_ns
    else
      dev.qos_resume_latency_us * NSEC_PER_USEC
  if constraint_ns < constraint_ns_p then constraint_ns else constraint_ns_p

/-- Embedding of `struct gpd_timing_data` (the fields used here). -/
structure GpdTimingData where
  suspend_latency_ns : Int
  resume_latency_ns : Int
  constraint_changed : Bool
  cached_suspend_ok : Bool
  effective_constraint_ns : Int
deriving DecidableEq

/-- A device as seen by `default_suspend_ok`: its timing data, the value
`__dev_pm_qos_resume_latency` returns for it (microseconds), its
`power.ignore_children` flag and its device-tree children. -/
structure Device where
  td : GpdTimingData
  qos_resume_latency_us : Int
  ignore_children : Bool
  children : List ChildDev
deriving DecidableEq

/-- The constraint value `default_suspend_ok` has in hand after multiplying
the device's own QoS value by `NSEC_PER_USEC` and (unless
`power.ignore_children` is set) walking the device-tree children with
`device_for_each_child(dev, &constraint_ns, dev_update_qos_constraint)`. -/
def folded_constraint_ns (dev : Device) : Int :=
  let constraint_ns := dev.qos_resume_latency_us * NSEC_PER_USEC
  if dev.ignore_children then
    constraint_ns
  else
    dev.children.foldl (fun acc ch => dev_update_qos_constraint ch acc) constraint_ns

/-- Embedding of `default_suspend_ok`: returns the boolean result and the
device with its timing data updated (the C code mutates `td` in place). -/
def default_suspend_ok (dev : Device) : Bool × Device :=
  if dev.td.constraint_changed = false then
    (dev.td.cached_suspend_ok, dev)
  else
    let td1 := { dev.td with
      constraint_changed := false
      cached_suspend_ok := false
      effective_constraint_ns := 0 }
    let dev1 := { dev with td := td1 }
    if dev.qos_resume_latency_us = 0 then
      (false, dev1)
    else
      let constraint_ns := folded_constraint_ns dev
      if constraint_ns = PM_QOS_RESUME_LATENCY_NO_CONSTRAINT_NS then
        (true, { dev1 with td := { td1 with
          effective_constraint_ns := PM_QOS_RESUME_LATENCY_NO_CONSTRAINT_NS
          cached_suspend_ok := true } })
      else if constraint_ns = 0 then
        (false, dev1)
      else
        let constraint_ns2 :=
          constraint_ns - (td1.suspend_latency_ns + td1.resume_latency_ns)
        if constraint_ns2 ≤ 0 then
          (false, dev1)
        else
          (true, { dev1 with td := { td1 with
            effective_constraint_ns := constraint_ns2
            cached_suspend_ok := true } })

/-- Embedding of `struct genpd_power_state` (the latency fields). -/
structure GenpdState where
  power_off_latency_ns : Int
  power_on_latency_ns : Int
deriving DecidableEq

/-- A generic PM domain as seen by the power-down governor.  Subdomains appear
through the only field read of them (`max_off_time_ns`), the member devices
through the only field read of them (`td.effective_constraint_ns`); the
parents reached through `child_links` are passed to `default_power_down_ok`
separately. -/
structure Genpd where
  states : List GenpdState
  state_idx : Nat
  max_off_time_ns : Int
  max_off_time_changed : Bool
  cached_power_down_ok : Bool
  cached_power_down_state_idx : Nat
  subdomain_max_off : List Int
  device_constraints : List Int
deriving DecidableEq

/-- The subdomain loop of `__default_power_down_ok`: walk the subdomains'
`max_off_time_ns` values, skipping negative (unconstrained) ones, failing
(`none`) when one is `≤ off_on_time_ns`, and tracking the minimum in the C
code's style (`min_off_time_ns` starts at `-1`). -/
def subdomain_loop (off_on_time_ns : Int) : List Int → Int → Option Int
  | [], min_off_time_ns => some min_off_time_ns
  | sd_max_off_ns :: rest, min_off_time_ns =>
    if sd_max_off_ns < 0 then
      subdomain_loop off_on_time_ns rest min_off_time_ns
    else if sd_max_off_ns ≤ off_on_time_ns then
      none
    else if min_off_time_ns > sd_max_off_ns ∨ min_off_time_ns < 0 then
      subdomain_loop off_on_time_ns rest sd_max_off_ns
    else
      subdomain_loop off_on_time_ns rest min_off_time_ns

/-- The device loop of `__default_power_down_ok`: walk the member devices'
`effective_constraint_ns` values, skipping the UNCONSTRAINED sentinel, failing
(`none`) when one is `≤ off_on_time_ns`, and tracking the minimum. -/
def device_loop (off_on_time_ns : Int) : List Int → Int → Option Int
  | [], min_off_time_ns => some min_off_time_ns
  | constraint_ns :: rest, min_off_time_ns =>
    if constraint_ns = PM_QOS_RESUME_LATENCY_NO_CONSTRAINT_NS then
      device_loop off_on_time_ns rest min_off_time_ns
    else if constraint_ns ≤ off_on_time_ns then
      none
    else if min_off_time_ns > constraint_ns ∨ min_off_time_ns < 0 then
      device_loop off_on_time_ns rest constraint_ns
    else
      device_loop off_on_time_ns rest min_off_time_ns

/-- Embedding of `__default_power_down_ok` for one candidate `state`: returns
the boolean result and the domain, whose `max_off_time_ns` is updated exactly
when the state qualifies with a nonnegative tracked minimum. -/
def __default_power_down_ok (genpd : Genpd) (state : Nat) : Bool × Genpd :=
  let st := genpd.states.getD state ⟨0, 0⟩
  let off_on_time_ns := st.power_off_latency_ns + st.power_on_latency_ns
  match subdomain_loop off_on_time_ns genpd.subdomain_max_off (-1) with
  | none => (false, genpd)
  | some m1 =>
    match device_loop off_on_time_ns genpd.device_constraints m1 with
    | none => (false, genpd)
    | some min_off_time_ns =>
      if min_off_time_ns < 0 then
        (true, genpd)
      else
        (true, { genpd with
          max_off_time_ns := min_off_time_ns - st.power_on_latency_ns })

/-- The `while (!__default_power_down_ok(pd, genpd->state_idx))` loop of
`default_power_down_ok`, recursing on the candidate index: returns the domain
after the loop, the index the loop stopped at, and whether a state was found.
On a failing candidate `__default_power_down_ok` has written nothing, so the
recursion continues with the domain unchanged, as in the C code. -/
def power_down_search (genpd : Genpd) : Nat → Genpd × Nat × Bool
  | 0 =>
    let r := __default_power_down_ok genpd 0
    if r.1 then (r.2, 0, true) else (genpd, 0, false)
  | n + 1 =>
    let r := __default_power_down_ok genpd (n + 1)
    if r.1 then (r.2, n + 1, true) else power_down_search genpd n

/-- Embedding of `default_power_down_ok`: takes the domain and the list of its
parent domains (reached via `child_links` in C) and returns the boolean
result, the updated domain, and the updated parents. -/
def default_power_down_ok (genpd : Genpd) (parents : List Genpd) :
    Bool × Genpd × List Genpd :=
  if genpd.max_off_time_changed = false then
    (genpd.cached_power_down_ok,
     { genpd with state_idx := genpd.cached_power_down_state_idx },
     parents)
  else
    let parents2 := parents.map fun p => { p with max_off_time_changed := true }
    let g0 := { genpd with
      max_off_time_ns := -1
      max_off_time_changed := false
      cached_power_down_ok := true
      state_idx := genpd.states.length - 1 }
    let r := power_down_search g0 g0.state_idx
    (r.2.2,
     { r.1 with
        state_idx := r.2.1
        cached_power_down_ok := r.2.2
        cached_power_down_state_idx := r.2.1 },
     parents2)

/-- Embedding of `always_on_power_down_ok`: returns false and touches
nothing. -/
def always_on_power_down_ok (genpd : Genpd) (parents : List Genpd) :
    Bool × Genpd × List Genpd :=
  (false, genpd, parents)

/-- Embedding of `struct dev_power_governor`: the two-operation capability
set. -/
structure DevPowerGovernor where
  suspend_ok : Device → Bool × Device
  power_down_ok : Genpd → List Genpd → Bool × Genpd × List Genpd

/-- Embedding of `simple_qos_governor`. -/
def simple_qos_governor : DevPowerGovernor :=
  { suspend_ok := default_suspend_ok
    power_down_ok := default_power_down_ok }

/-- Embedding of `pm_domain_always_on_gov`. -/
def pm_domain_always_on_gov : DevPowerGovernor :=
  { power_down_ok := always_on_power_down_ok
    suspend_ok := default_suspend_ok }

/-- Written from the spec's words (for comparison with
`dev_update_qos_constraint`): the contribution of a device-tree child — its
domain's already-computed effective budget if it belongs to a domain, else its
own resume-latency constraint normalized to nanoseconds. -/
def child_contrib (ch : ChildDev) : Int :=
  if ch.has_domain_data then
    ch.effective_constraint_ns
  else
    ch.qos_resume_latency_us * NSEC_PER_USEC

/-- Written from the spec's words (for comparison with the code's search):
state `s` qualifies when every subdomain's `max_off_time_ns` is UNCONSTRAINED
(negative, the domain-side sentinel convention) or strictly greater than the
state's round-trip latency, and every member device's effective budget is the
UNCONSTRAINED sentinel or strictly greater than the round-trip latency. -/
def state_qualifies (genpd : Genpd) (s : Nat) : Bool :=
  let st := genpd.states.getD s ⟨0, 0⟩
  let off_on := st.power_off_latency_ns + st.power_on_latency_ns
  (genpd.subdomain_max_off.all fun sd =>
    decide (sd < 0) || decide (off_on < sd)) &&
  (genpd.device_constraints.all fun c =>
    decide (c = PM_QOS_RESUME_LATENCY_NO_CONSTRAINT_NS) || decide (off_on < c))

/-- Written from the spec's words: the finite (constrained) contributors of a
domain — subdomain budgets that are not the negative sentinel, and member
device budgets that are not the UNCONSTRAINED sentinel. -/
def finite_contribs (genpd : Genpd) : List Int :=
  (genpd.subdomain_max_off.filter fun sd => decide (0 ≤ sd)) ++
  (genpd.device_constraints.filter
    fun c => decide (¬ c = PM_QOS_RESUME_LATENCY_NO_CONSTRAINT_NS))

/-- Minimum of a list of integers, `none` on the empty list. -/
def min_of_list : List Int → Option Int
  | [] => none
  | x :: xs => some (xs.foldl min x)

/-- The C code's running-minimum update, `if (min > c || min < 0) min = c`. -/
def trackMin (m c : Int) : Int :=
  if m > c ∨ m < 0 then c else m

/-- Example domain: states `[(off=10,on=10), (off=100,on=100)]`, no subdomains,
one member device with effective budget 150 ns (the spec's fallback example). -/
def gFallbackEx : Genpd :=
  ⟨[⟨10, 10⟩, ⟨100, 100⟩], 0, -1, true, false, 0, [], [150]⟩

/-- Example domain: same states, one member device with effective budget 500 ns
(the spec's deepest-state example). -/
def gDeepEx : Genpd :=
  ⟨[⟨10, 10⟩, ⟨100, 100⟩], 0, -1, true, false, 0, [], [500]⟩

/-- Example parent domain with a clear dirty flag. -/
def gParentEx : Genpd :=
  ⟨[⟨1, 1⟩], 0, 77, false, true, 0, [], []⟩

/-- The conservative up-front reset `default_suspend_ok` performs when it
starts recomputing: flag cleared, `cached_suspend_ok = false`,
`effective_constraint_ns = 0` (the value `dev1` holds on every early-return
path). -/
def resetDev (dev : Device) : Device :=
  { dev with td := { dev.td with
    constraint_changed := false
    cached_suspend_ok := false
    effective_constraint_ns := 0 } }

/-- The state `default_suspend_ok` leaves behind when it grants suspension
with residual budget `budget`. -/
def grantDev (dev : Device) (budget : Int) : Device :=
  { dev with td := { dev.td with
    constraint_changed := false
    cached_suspend_ok := true
    effective_constraint_ns := budget } }

/-- Example device: dirty flag set, own constraint 300 µs, latencies
1000 + 2000 ns, no children. -/
def dFiniteEx : Device := ⟨⟨1000, 2000, true, false, 0⟩, 300, false, []⟩

/-- Example device: dirty flag set, own constraint exactly 0. -/
def dZeroEx : Device := ⟨⟨1, 1, true, false, 0⟩, 0, false, [⟨false, 0, 99⟩]⟩

/-- Example device: everything unconstrained (own constraint and the single
domain-bound child). -/
def dUnconstrainedEx : Device :=
  ⟨⟨1000, 2000, true, false, 0⟩, PM_QOS_RESUME_LATENCY_NO_CONSTRAINT, false,
   [⟨true, PM_QOS_RESUME_LATENCY_NO_CONSTRAINT_NS, 0⟩]⟩

/-- Example device: clean flag, cached decision true, budget 444. -/
def dCachedEx : Device := ⟨⟨10, 10, false, true, 444⟩, 100, false, []⟩

/-- Example device: dirty flag set and `ignore_children` set. -/
def dIgnoreEx : Device := ⟨⟨10, 10, true, false, 0⟩, 100, true, []⟩

lemma subdomain_loop_isSome (t : Int) (l : List Int) (m : Int) :
    (subdomain_loop t l m).isSome =
      (l.all fun sd => decide (sd < 0) || decide (t < sd)) := by
  induction l generalizing m with
  | nil => simp [subdomain_loop]
  | cons sd rest ih =>
    simp only [subdomain_loop, List.all_cons]
    by_cases h1 : sd < 0
    · simp [h1, ih]
    · by_cases h2 : sd ≤ t
      · simp [h1, h2, not_lt.mpr h2]
      · by_cases h3 : m > sd ∨ m < 0
        · simp [h1, h2, h3, ih, not_le.mp h2]
        · simp [h1, h2, h3, ih, not_le.mp h2]

lemma device_loop_isSome (t : Int) (l : List Int) (m : Int) :
    (device_loop t l m).isSome =
      (l.all fun c =>
        decide (c = PM_QOS_RESUME_LATENCY_NO_CONSTRAINT_NS) || decide (t < c)) := by
  induction l generalizing m with
  | nil => simp [device_loop]
  | cons c rest ih =>
    simp only [device_loop, List.all_cons]
    by_cases h1 : c = PM_QOS_RESUME_LATENCY_NO_CONSTRAINT_NS
    · simp [h1, ih]
    · by_cases h2 : c ≤ t
      · simp [h1, h2, not_lt.mpr h2]
      · by_cases h3 : m > c ∨ m < 0
        · simp [h1, h2, h3, ih, not_le.mp h2]
        · simp [h1, h2, h3, ih, not_le.mp h2]

lemma dpdo_fst (g : Genpd) (s : Nat) :
    (__default_power_down_ok g s).1 = state_qualifies g s := by
  simp only [__default_power_down_ok, state_qualifies]
  have hsub := subdomain_loop_isSome
    ((g.states.getD s ⟨0, 0⟩).power_off_latency_ns +
      (g.states.getD s ⟨0, 0⟩).power_on_latency_ns) g.subdomain_max_off (-1)
  rcases h1 : subdomain_loop
      ((g.states.getD s ⟨0, 0⟩).power_off_latency_ns +
        (g.states.getD s ⟨0, 0⟩).power_on_latency_ns) g.subdomain_max_off (-1) with
    _ | m1
  · rw [h1] at hsub
    simp only [Option.isSome_none] at hsub
    rw [← hsub, Bool.false_and]
  · rw [h1] at hsub
    simp only [Option.isSome_some] at hsub
    dsimp only
    have hdev := device_loop_isSome
      ((g.states.getD s ⟨0, 0⟩).power_off_latency_ns +
        (g.states.getD s ⟨0, 0⟩).power_on_latency_ns) g.device_constraints m1
    rcases h2 : device_loop
        ((g.states.getD s ⟨0, 0⟩).power_off_latency_ns +
          (g.states.getD s ⟨0, 0⟩).power_on_latency_ns) g.device_constraints m1 with
      _ | m2
    · rw [h2] at hdev
      simp only [Option.isSome_none] at hdev
      rw [← hsub, ← hdev, Bool.and_false]
    · rw [h2] at hdev
      simp only [Option.isSome_some] at hdev
      dsimp only
      rw [← hsub, ← hdev, Bool.and_self]
      split <;> rfl

lemma dpdo_frame (g : Genpd) (s : Nat) :
    ∃ v, (__default_power_down_ok g s).2 = { g with max_off_time_ns := v } := by
  simp only [__default_power_down_ok]
  rcases h1 : subdomain_loop
      ((g.states.getD s ⟨0, 0⟩).power_off_latency_ns +
        (g.states.getD s ⟨0, 0⟩).power_on_latency_ns) g.subdomain_max_off (-1) with
    _ | m1
  · exact ⟨g.max_off_time_ns, rfl⟩
  · dsimp only
    rcases h2 : device_loop
        ((g.states.getD s ⟨0, 0⟩).power_off_latency_ns +
          (g.states.getD s ⟨0, 0⟩).power_on_latency_ns) g.device_constraints m1 with
      _ | m2
    · exact ⟨g.max_off_time_ns, rfl⟩
    · dsimp only
      by_cases h : m2 < 0
      · refine ⟨g.max_off_time_ns, ?_⟩
        rw [if_pos h]
      · refine ⟨m2 - (g.states.getD s ⟨0, 0⟩).power_on_latency_ns, ?_⟩
        rw [if_neg h]

lemma power_down_search_frame (g : Genpd) (idx : Nat) :
    ∃ v, (power_down_search g idx).1 = { g with max_off_time_ns := v } := by
  induction idx with
  | zero =>
    cases h : (__default_power_down_ok g 0).1 with
    | false => exact ⟨g.max_off_time_ns, by simp [power_down_search, h]⟩
    | true => simpa [power_down_search, h] using dpdo_frame g 0
  | succ n ih =>
    cases h : (__default_power_down_ok g (n + 1)).1 with
    | false => simpa [power_down_search, h] using ih
    | true => simpa [power_down_search, h] using dpdo_frame g (n + 1)

lemma power_down_search_found (g : Genpd) (idx : Nat)
    (h : (power_down_search g idx).2.2 = true) :
    (power_down_search g idx).2.1 ≤ idx ∧
    state_qualifies g (power_down_search g idx).2.1 = true ∧
    ∀ j, (power_down_search g idx).2.1 < j → j ≤ idx →
      state_qualifies g j = false := by
  induction idx with
  | zero =>
    cases hq : (__default_power_down_ok g 0).1 with
    | false => simp [power_down_search, hq] at h
    | true =>
      have hres : power_down_search g 0 =
          ((__default_power_down_ok g 0).2, 0, true) := by
        simp [power_down_search, hq]
      rw [hres]
      refine ⟨Nat.le_refl 0, by rw [← dpdo_fst]; exact hq, ?_⟩
      intro j hj1 hj2
      dsimp only at hj1
      exact absurd hj2 (by omega)
  | succ n ih =>
    cases hq : (__default_power_down_ok g (n + 1)).1 with
    | false =>
      have hrec : power_down_search g (n + 1) = power_down_search g n := by
        simp [power_down_search, hq]
      rw [hrec] at h ⊢
      obtain ⟨h1, h2, h3⟩ := ih h
      refine ⟨Nat.le_succ_of_le h1, h2, ?_⟩
      intro j hj1 hj2
      rcases Nat.lt_or_ge j (n + 1) with hlt | hge
      · exact h3 j hj1 (by omega)
      · have hj : j = n + 1 := by omega
        rw [hj, ← dpdo_fst, hq]
    | true =>
      have hres : power_down_search g (n + 1) =
          ((__default_power_down_ok g (n + 1)).2, n + 1, true) := by
        simp [power_down_search, hq]
      rw [hres]
      refine ⟨Nat.le_refl _, by rw [← dpdo_fst]; exact hq, ?_⟩
      intro j hj1 hj2
      dsimp only at hj1
      exact absurd hj2 (by omega)

lemma power_down_search_not_found (g : Genpd) (idx : Nat)
    (h : (power_down_search g idx).2.2 = false) :
    (power_down_search g idx).1 = g ∧ (power_down_search g idx).2.1 = 0 ∧
    ∀ j, j ≤ idx → state_qualifies g j = false := by
  induction idx with
  | zero =>
    cases hq : (__default_power_down_ok g 0).1 with
    | true => simp [power_down_search, hq] at h
    | false =>
      refine ⟨by simp [power_down_search, hq], by simp [power_down_search, hq], ?_⟩
      intro j hj
      have hj0 : j = 0 := Nat.le_zero.mp hj
      rw [hj0, ← dpdo_fst, hq]
  | succ n ih =>
    cases hq : (__default_power_down_ok g (n + 1)).1 with
    | true => simp [power_down_search, hq] at h
    | false =>
      have hrec : power_down_search g (n + 1) = power_down_search g n := by
        simp [power_down_search, hq]
      rw [hrec] at h ⊢
      obtain ⟨h1, h2, h3⟩ := ih h
      refine ⟨h1, h2, ?_⟩
      intro j hj
      rcases Nat.lt_or_ge j (n + 1) with hlt | hge
      · exact h3 j (by omega)
      · have hj1 : j = n + 1 := by omega
        rw [hj1, ← dpdo_fst, hq]

lemma trackMin_nonneg (m c : Int) (hm : 0 ≤ m) : trackMin m c = min m c := by
  unfold trackMin
  rcases lt_trichotomy m c with h | h | h
  · rw [if_neg (by omega), min_eq_left (le_of_lt h)]
  · rw [if_neg (by omega), h, min_self]
  · rw [if_pos (Or.inl h), min_eq_right (le_of_lt h)]

lemma foldl_trackMin_nonneg (xs : List Int) (m : Int) (hm : 0 ≤ m)
    (hx : ∀ x ∈ xs, 0 ≤ x) : xs.foldl trackMin m = xs.foldl min m := by
  induction xs generalizing m with
  | nil => rfl
  | cons x rest ih =>
    simp only [List.foldl_cons]
    rw [trackMin_nonneg m x hm]
    exact ih (min m x) (le_min hm (hx x (List.mem_cons_self x rest)))
      fun y hy => hx y (List.mem_cons_of_mem x hy)

lemma foldl_min_nonneg (xs : List Int) (m : Int) (hm : 0 ≤ m)
    (hx : ∀ x ∈ xs, 0 ≤ x) : 0 ≤ xs.foldl min m := by
  induction xs generalizing m with
  | nil => exact hm
  | cons x rest ih =>
    simp only [List.foldl_cons]
    exact ih (min m x) (le_min hm (hx x (List.mem_cons_self x rest)))
      fun y hy => hx y (List.mem_cons_of_mem x hy)

lemma foldl_trackMin_neg_start (xs : List Int) (m : Int) (hm : m < 0)
    (hx : ∀ x ∈ xs, 0 ≤ x) :
    xs.foldl trackMin m = (min_of_list xs).getD m := by
  cases xs with
  | nil => rfl
  | cons x rest =>
    simp only [List.foldl_cons, min_of_list, Option.getD_some]
    have hstep : trackMin m x = x := by
      unfold trackMin
      rw [if_pos (Or.inr hm)]
    rw [hstep]
    exact foldl_trackMin_nonneg rest x (hx x (List.mem_cons_self x rest))
      fun y hy => hx y (List.mem_cons_of_mem x hy)

lemma min_of_list_nonneg (xs : List Int) (hx : ∀ x ∈ xs, 0 ≤ x) (v : Int)
    (hv : min_of_list xs = some v) : 0 ≤ v := by
  cases xs with
  | nil => simp [min_of_list] at hv
  | cons x rest =>
    simp only [min_of_list, Option.some_inj] at hv
    rw [← hv]
    exact foldl_min_nonneg rest x (hx x (List.mem_cons_self x rest))
      fun y hy => hx y (List.mem_cons_of_mem x hy)

lemma subdomain_loop_all_pass (t : Int) (l : List Int) (m : Int)
    (ht : 0 ≤ t)
    (hp : ∀ sd ∈ l, sd < 0 ∨ t < sd) :
    subdomain_loop t l m =
      some ((l.filter fun sd => decide (0 ≤ sd)).foldl trackMin m) := by
  induction l generalizing m with
  | nil => rfl
  | cons sd rest ih =>
    have hsd := hp sd (List.mem_cons_self sd rest)
    have hrest : ∀ y ∈ rest, y < 0 ∨ t < y :=
      fun y hy => hp y (List.mem_cons_of_mem sd hy)
    by_cases h1 : sd < 0
    · have hf : decide (0 ≤ sd) = false := by
        simp [not_le.mpr h1]
      simp only [subdomain_loop, if_pos h1, List.filter_cons, hf]
      exact ih m hrest
    · have ht2 : t < sd := hsd.resolve_left h1
      have h2 : ¬ sd ≤ t := not_le.mpr ht2
      have hf : decide (0 ≤ sd) = true := by
        simp [le_of_lt (lt_of_le_of_lt ht ht2)]
      simp only [subdomain_loop, if_neg h1, if_neg h2, List.filter_cons, hf,
        if_true, List.foldl_cons]
      by_cases h3 : m > sd ∨ m < 0
      · rw [if_pos h3, ih sd hrest]
        have : trackMin m sd = sd := by
          unfold trackMin
          rw [if_pos h3]
        rw [this]
      · rw [if_neg h3, ih m hrest]
        have : trackMin m sd = m := by
          unfold trackMin
          rw [if_neg h3]
        rw [this]

lemma device_loop_all_pass (t : Int) (l : List Int) (m : Int)
    (hp : ∀ c ∈ l, c = PM_QOS_RESUME_LATENCY_NO_CONSTRAINT_NS ∨ t < c) :
    device_loop t l m =
      some ((l.filter
        fun c => decide (¬ c = PM_QOS_RESUME_LATENCY_NO_CONSTRAINT_NS)).foldl
          trackMin m) := by
  induction l generalizing m with
  | nil => rfl
  | cons c rest ih =>
    have hc := hp c (List.mem_cons_self c rest)
    have hrest : ∀ y ∈ rest, y = PM_QOS_RESUME_LATENCY_NO_CONSTRAINT_NS ∨ t < y :=
      fun y hy => hp y (List.mem_cons_of_mem c hy)
    by_cases h1 : c = PM_QOS_RESUME_LATENCY_NO_CONSTRAINT_NS
    · have hf : decide (¬ c = PM_QOS_RESUME_LATENCY_NO_CONSTRAINT_NS) = false := by
        simp [h1]
      simp only [device_loop, if_pos h1, List.filter_cons, hf]
      exact ih m hrest
    · have ht2 : t < c := hc.resolve_left h1
      have h2 : ¬ c ≤ t := not_le.mpr ht2
      have hf : decide (¬ c = PM_QOS_RESUME_LATENCY_NO_CONSTRAINT_NS) = true := by
        simp [h1]
      simp only [device_loop, if_neg h1, if_neg h2, List.filter_cons, hf,
        if_true, List.foldl_cons]
      by_cases h3 : m > c ∨ m < 0
      · rw [if_pos h3, ih c hrest]
        have : trackMin m c = c := by
          unfold trackMin
          rw [if_pos h3]
        rw [this]
      · rw [if_neg h3, ih m hrest]
        have : trackMin m c = m := by
          unfold trackMin
          rw [if_neg h3]
        rw [this]

lemma state_qualifies_pass (g : Genpd) (s : Nat) (h : state_qualifies g s = true) :
    (∀ sd ∈ g.subdomain_max_off, sd < 0 ∨
      (g.states.getD s ⟨0, 0⟩).power_off_latency_ns +
        (g.states.getD s ⟨0, 0⟩).power_on_latency_ns < sd) ∧
    (∀ c ∈ g.device_constraints, c = PM_QOS_RESUME_LATENCY_NO_CONSTRAINT_NS ∨
      (g.states.getD s ⟨0, 0⟩).power_off_latency_ns +
        (g.states.getD s ⟨0, 0⟩).power_on_latency_ns < c) := by
  simp only [state_qualifies, Bool.and_eq_true, List.all_eq_true] at h
  constructor
  · intro sd hsd
    simpa using h.1 sd hsd
  · intro c hc
    simpa using h.2 c hc

lemma dpdo_max_off (g : Genpd) (s : Nat)
    (ht : 0 ≤ (g.states.getD s ⟨0, 0⟩).power_off_latency_ns +
      (g.states.getD s ⟨0, 0⟩).power_on_latency_ns)
    (hq : (__default_power_down_ok g s).1 = true) :
    (__default_power_down_ok g s).2.max_off_time_ns =
      ((min_of_list (finite_contribs g)).map
        (fun v => v - (g.states.getD s ⟨0, 0⟩).power_on_latency_ns)).getD
        g.max_off_time_ns := by
  rw [dpdo_fst] at hq
  obtain ⟨hsubs, hdevs⟩ := state_qualifies_pass g s hq
  have h1 := subdomain_loop_all_pass
    ((g.states.getD s ⟨0, 0⟩).power_off_latency_ns +
      (g.states.getD s ⟨0, 0⟩).power_on_latency_ns)
    g.subdomain_max_off (-1) ht hsubs
  have h2 := device_loop_all_pass
    ((g.states.getD s ⟨0, 0⟩).power_off_latency_ns +
      (g.states.getD s ⟨0, 0⟩).power_on_latency_ns)
    g.device_constraints
    ((g.subdomain_max_off.filter fun sd => decide (0 ≤ sd)).foldl trackMin (-1))
    hdevs
  have hfsnn : ∀ x ∈ g.subdomain_max_off.filter fun sd => decide (0 ≤ sd),
      (0 : Int) ≤ x := by
    intro x hx
    simpa using (List.mem_filter.mp hx).2
  have hfdnn : ∀ x ∈ g.device_constraints.filter
      (fun c => decide (¬ c = PM_QOS_RESUME_LATENCY_NO_CONSTRAINT_NS)),
      (0 : Int) ≤ x := by
    intro x hx
    obtain ⟨hxl, hxne⟩ := List.mem_filter.mp hx
    have hxne2 : ¬ x = PM_QOS_RESUME_LATENCY_NO_CONSTRAINT_NS := by simpa using hxne
    have := (hdevs x hxl).resolve_left hxne2
    omega
  have hall : ∀ x ∈ finite_contribs g, (0 : Int) ≤ x := by
    intro x hx
    rcases List.mem_append.mp hx with hx1 | hx2
    · exact hfsnn x hx1
    · exact hfdnn x hx2
  have happ : (g.device_constraints.filter
        fun c => decide (¬ c = PM_QOS_RESUME_LATENCY_NO_CONSTRAINT_NS)).foldl
          trackMin
          ((g.subdomain_max_off.filter fun sd => decide (0 ≤ sd)).foldl
            trackMin (-1)) =
      (finite_contribs g).foldl trackMin (-1) := by
    rw [finite_contribs, List.foldl_append]
  have hval : (finite_contribs g).foldl trackMin (-1) =
      (min_of_list (finite_contribs g)).getD (-1) :=
    foldl_trackMin_neg_start (finite_contribs g) (-1) (by norm_num) hall
  simp only [__default_power_down_ok]
  rw [h1]
  dsimp only
  rw [h2]
  dsimp only
  rw [happ, hval]
  rcases hmin : min_of_list (finite_contribs g) with _ | v
  · rw [if_pos (by norm_num)]
    simp
  · have hv : 0 ≤ v := min_of_list_nonneg (finite_contribs g) hall v hmin
    rw [Option.getD_some, if_neg (not_lt.mpr hv)]
    simp

lemma power_down_search_found_state (g : Genpd) (idx : Nat)
    (h : (power_down_search g idx).2.2 = true) :
    power_down_search g idx =
      ((__default_power_down_ok g (power_down_search g idx).2.1).2,
       (power_down_search g idx).2.1, true) := by
  induction idx with
  | zero =>
    cases hq : (__default_power_down_ok g 0).1 with
    | false => simp [power_down_search, hq] at h
    | true => simp [power_down_search, hq]
  | succ n ih =>
    cases hq : (__default_power_down_ok g (n + 1)).1 with
    | false =>
      have hrec : power_down_search g (n + 1) = power_down_search g n := by
        simp [power_down_search, hq]
      rw [hrec] at h ⊢
      exact ih h
    | true => simp [power_down_search, hq]

/-- C1: for every domain whose `max_off_time_changed` flag is set,
`default_power_down_ok` tries candidate states from the deepest down to index
0 and returns the first (hence deepest) state whose round-trip latency every
subdomain budget and every member-device budget either ignores (UNCONSTRAINED)
or strictly exceeds; if no state qualifies the result is "stay powered" with
`cached_power_down_ok = false`. -/
theorem C1_deepest_qualifying_state (g : Genpd) (ps : List Genpd)
    (hch : g.max_off_time_changed = true) (hs : 0 < g.states.length) :
    ((default_power_down_ok g ps).1 = true ↔
      ∃ s, s < g.states.length ∧ state_qualifies g s = true) ∧
    ((default_power_down_ok g ps).1 = true →
      (default_power_down_ok g ps).2.1.state_idx < g.states.length ∧
      state_qualifies g (default_power_down_ok g ps).2.1.state_idx = true ∧
      ∀ j, (default_power_down_ok g ps).2.1.state_idx < j →
        j < g.states.length → state_qualifies g j = false) ∧
    ((default_power_down_ok g ps).1 = false →
      (default_power_down_ok g ps).2.1.cached_power_down_ok = false) := by
  simp only [default_power_down_ok, hch, Bool.true_eq_false, if_false]
  set g0 : Genpd := { g with
    max_off_time_ns := -1
    max_off_time_changed := false
    cached_power_down_ok := true
    state_idx := g.states.length - 1 } with hg0
  cases hfound : (power_down_search g0 (g.states.length - 1)).2.2 with
  | true =>
    obtain ⟨hle, hqual, hmax⟩ :=
      power_down_search_found g0 (g.states.length - 1) hfound
    have hq2 : state_qualifies g
        (power_down_search g0 (g.states.length - 1)).2.1 = true := hqual
    refine ⟨⟨fun _ => ⟨_, by omega, hq2⟩, fun _ => rfl⟩, fun _ => ⟨by omega, hq2, ?_⟩,
      fun hc => absurd hc (by simp)⟩
    intro j hj1 hj2
    exact hmax j hj1 (by omega)
  | false =>
    obtain ⟨hgeq, hidx, hnone⟩ :=
      power_down_search_not_found g0 (g.states.length - 1) hfound
    refine ⟨⟨fun hc => absurd hc (by simp), ?_⟩,
      fun hc => absurd hc (by simp), fun _ => rfl⟩
    rintro ⟨s, hslt, hsq⟩
    have hgq : state_qualifies g s = false := hnone s (by omega)
    rw [hsq] at hgq
    exact absurd hgq (by simp)

theorem C1_witness :
    (default_power_down_ok gFallbackEx []).1 = true ↔
      ∃ s, s < gFallbackEx.states.length ∧ state_qualifies gFallbackEx s = true :=
  (C1_deepest_qualifying_state gFallbackEx [] rfl (by decide)).1

/-- C2: when a recomputing `default_power_down_ok` call chooses a state, the
budget the domain offers its parent (`max_off_time_ns`) is the minimum over
the finite subdomain budgets and finite member-device budgets minus the chosen
state's `power_on_latency_ns`; if every contributor is unconstrained it stays
the UNCONSTRAINED sentinel `-1`. -/
theorem C2_offered_budget (g : Genpd) (ps : List Genpd)
    (hch : g.max_off_time_changed = true)
    (hlat : ∀ st ∈ g.states,
      0 ≤ st.power_off_latency_ns ∧ 0 ≤ st.power_on_latency_ns)
    (hok : (default_power_down_ok g ps).1 = true) :
    (default_power_down_ok g ps).2.1.max_off_time_ns =
      ((min_of_list (finite_contribs g)).map
        (fun v => v - (g.states.getD (default_power_down_ok g ps).2.1.state_idx
          ⟨0, 0⟩).power_on_latency_ns)).getD (-1) := by
  simp only [default_power_down_ok, hch, Bool.true_eq_false, if_false] at hok ⊢
  set g0 : Genpd := { g with
    max_off_time_ns := -1
    max_off_time_changed := false
    cached_power_down_ok := true
    state_idx := g.states.length - 1 } with hg0
  obtain ⟨hle, hqual, hmax⟩ :=
    power_down_search_found g0 (g.states.length - 1) hok
  have hstate := power_down_search_found_state g0 (g.states.length - 1) hok
  have hfst : (power_down_search g0 (g.states.length - 1)).1 =
      (__default_power_down_ok g0
        (power_down_search g0 (g.states.length - 1)).2.1).2 :=
    congrArg Prod.fst hstate
  have hq1 : (__default_power_down_ok g0
      (power_down_search g0 (g.states.length - 1)).2.1).1 = true := by
    rw [dpdo_fst]
    exact hqual
  have ht : 0 ≤ (g.states.getD (power_down_search g0 (g.states.length - 1)).2.1
        ⟨0, 0⟩).power_off_latency_ns +
      (g.states.getD (power_down_search g0 (g.states.length - 1)).2.1
        ⟨0, 0⟩).power_on_latency_ns := by
    by_cases hi : (power_down_search g0 (g.states.length - 1)).2.1 <
        g.states.length
    · have hmem : g.states.getD
          (power_down_search g0 (g.states.length - 1)).2.1 ⟨0, 0⟩ ∈ g.states := by
        rw [List.getD_eq_getElem?_getD, List.getElem?_eq_getElem hi,
          Option.getD_some]
        exact List.getElem_mem hi
      obtain ⟨ha, hb⟩ := hlat _ hmem
      omega
    · rw [List.getD_eq_default _ _ (by omega)]
      norm_num
  rw [hfst]
  exact dpdo_max_off g0 (power_down_search g0 (g.states.length - 1)).2.1 ht hq1

theorem C2_witness :
    (default_power_down_ok gDeepEx []).2.1.max_off_time_ns =
      ((min_of_list (finite_contribs gDeepEx)).map
        (fun v => v - (gDeepEx.states.getD
          (default_power_down_ok gDeepEx []).2.1.state_idx
            ⟨0, 0⟩).power_on_latency_ns)).getD (-1) :=
  C2_offered_budget gDeepEx [] rfl (by decide) (by decide)

/-- C8: when `default_power_down_ok` recomputes (the dirty flag was set), the
parents come back exactly as before except that each one's
`max_off_time_changed` is set to true, and the domain's own
`max_off_time_changed` flag is cleared. -/
theorem C8_parent_invalidation (g : Genpd) (ps : List Genpd)
    (hch : g.max_off_time_changed = true) :
    (default_power_down_ok g ps).2.2 =
      ps.map (fun p => { p with max_off_time_changed := true }) ∧
    (default_power_down_ok g ps).2.1.max_off_time_changed = false := by
  simp only [default_power_down_ok, hch, Bool.true_eq_false, if_false]
  set g0 : Genpd := { g with
    max_off_time_ns := -1
    max_off_time_changed := false
    cached_power_down_ok := true
    state_idx := g.states.length - 1 } with hg0
  refine ⟨by trivial, ?_⟩
  obtain ⟨v, hv⟩ := power_down_search_frame g0 (g.states.length - 1)
  rw [hv]

theorem C8_witness :
    (default_power_down_ok gDeepEx [gParentEx]).2.2 =
      [gParentEx].map (fun p => { p with max_off_time_changed := true }) ∧
    (default_power_down_ok gDeepEx [gParentEx]).2.1.max_off_time_changed =
      false :=
  C8_parent_invalidation gDeepEx [gParentEx] rfl

/-- C9: under the always-on governor, `power_down_ok` returns "stay powered"
(false) for every domain and every state configuration, mutating nothing,
while its `suspend_ok` is the very same operation as the QoS-driven
governor's. -/
theorem C9_always_on_governor (g : Genpd) (ps : List Genpd) :
    (pm_domain_always_on_gov.power_down_ok g ps).1 = false ∧
    (pm_domain_always_on_gov.power_down_ok g ps).2.1 = g ∧
    (pm_domain_always_on_gov.power_down_ok g ps).2.2 = ps ∧
    pm_domain_always_on_gov.suspend_ok = simple_qos_governor.suspend_ok :=
  ⟨rfl, rfl, rfl, rfl⟩

lemma default_suspend_ok_fast (dev : Device)
    (h : dev.td.constraint_changed = false) :
    default_suspend_ok dev = (dev.td.cached_suspend_ok, dev) := by
  simp [default_suspend_ok, h]

lemma default_suspend_ok_recompute (dev : Device)
    (h : dev.td.constraint_changed = true) :
    default_suspend_ok dev =
      if dev.qos_resume_latency_us = 0 then
        (false, resetDev dev)
      else if folded_constraint_ns dev =
          PM_QOS_RESUME_LATENCY_NO_CONSTRAINT_NS then
        (true, grantDev dev PM_QOS_RESUME_LATENCY_NO_CONSTRAINT_NS)
      else if folded_constraint_ns dev = 0 then
        (false, resetDev dev)
      else if folded_constraint_ns dev -
          (dev.td.suspend_latency_ns + dev.td.resume_latency_ns) ≤ 0 then
        (false, resetDev dev)
      else
        (true, grantDev dev (folded_constraint_ns dev -
          (dev.td.suspend_latency_ns + dev.td.resume_latency_ns))) := by
  simp [default_suspend_ok, resetDev, grantDev, h]

lemma default_power_down_ok_fast (g : Genpd) (ps : List Genpd)
    (h : g.max_off_time_changed = false) :
    default_power_down_ok g ps =
      (g.cached_power_down_ok,
       { g with state_idx := g.cached_power_down_state_idx }, ps) := by
  simp [default_power_down_ok, h]

lemma default_suspend_ok_recompute_post (dev : Device)
    (h : dev.td.constraint_changed = true) :
    (default_suspend_ok dev).2.td.constraint_changed = false ∧
    (default_suspend_ok dev).2.td.cached_suspend_ok =
      (default_suspend_ok dev).1 := by
  rw [default_suspend_ok_recompute dev h]
  by_cases h0 : dev.qos_resume_latency_us = 0
  · rw [if_pos h0]
    exact ⟨rfl, rfl⟩
  · rw [if_neg h0]
    by_cases h1 : folded_constraint_ns dev =
        PM_QOS_RESUME_LATENCY_NO_CONSTRAINT_NS
    · rw [if_pos h1]
      exact ⟨rfl, rfl⟩
    · rw [if_neg h1]
      by_cases h2 : folded_constraint_ns dev = 0
      · rw [if_pos h2]
        exact ⟨rfl, rfl⟩
      · rw [if_neg h2]
        by_cases h3 : folded_constraint_ns dev -
            (dev.td.suspend_latency_ns + dev.td.resume_latency_ns) ≤ 0
        · rw [if_pos h3]
          exact ⟨rfl, rfl⟩
        · rw [if_neg h3]
          exact ⟨rfl, rfl⟩

lemma default_power_down_ok_recompute_post (g : Genpd) (ps : List Genpd)
    (h : g.max_off_time_changed = true) :
    (default_power_down_ok g ps).2.1.max_off_time_changed = false ∧
    (default_power_down_ok g ps).2.1.cached_power_down_ok =
      (default_power_down_ok g ps).1 ∧
    (default_power_down_ok g ps).2.1.state_idx =
      (default_power_down_ok g ps).2.1.cached_power_down_state_idx := by
  simp only [default_power_down_ok, h, Bool.true_eq_false, if_false]
  set g0 : Genpd := { g with
    max_off_time_ns := -1
    max_off_time_changed := false
    cached_power_down_ok := true
    state_idx := g.states.length - 1 } with hg0
  obtain ⟨v, hv⟩ := power_down_search_frame g0 (g.states.length - 1)
  refine ⟨?_, by trivial, by trivial⟩
  rw [hv]

lemma foldl_dev_update_ncns (l : List ChildDev)
    (h : ∀ ch ∈ l, child_contrib ch = PM_QOS_RESUME_LATENCY_NO_CONSTRAINT_NS) :
    l.foldl (fun acc ch => dev_update_qos_constraint ch acc)
      PM_QOS_RESUME_LATENCY_NO_CONSTRAINT_NS =
      PM_QOS_RESUME_LATENCY_NO_CONSTRAINT_NS := by
  induction l with
  | nil => rfl
  | cons ch rest ih =>
    simp only [List.foldl_cons]
    have hc : (if ch.has_domain_data then ch.effective_constraint_ns
        else ch.qos_resume_latency_us * NSEC_PER_USEC) =
        PM_QOS_RESUME_LATENCY_NO_CONSTRAINT_NS :=
      h ch (List.mem_cons_self ch rest)
    have hstep : dev_update_qos_constraint ch
        PM_QOS_RESUME_LATENCY_NO_CONSTRAINT_NS =
        PM_QOS_RESUME_LATENCY_NO_CONSTRAINT_NS := by
      simp only [dev_update_qos_constraint]
      rw [hc, if_neg (lt_irrefl _)]
    rw [hstep]
    exact ih fun y hy => h y (List.mem_cons_of_mem ch hy)

/-- C3: when `default_suspend_ok` recomputes and the folded constraint value
is finite (not the UNCONSTRAINED sentinel) and nonzero, it returns true iff
the value minus `suspend_latency_ns + resume_latency_ns` is positive, in which
case that difference is stored as the effective budget with
`cached_suspend_ok = true`; and on every false-returning recomputation path
the fields keep the conservative reset values `effective_constraint_ns = 0`,
`cached_suspend_ok = false`. -/
theorem C3_finite_budget_subtraction (dev : Device)
    (hch : dev.td.constraint_changed = true) :
    ((dev.qos_resume_latency_us ≠ 0 →
      folded_constraint_ns dev ≠ PM_QOS_RESUME_LATENCY_NO_CONSTRAINT_NS →
      folded_constraint_ns dev ≠ 0 →
      (((default_suspend_ok dev).1 = true) ↔
        0 < folded_constraint_ns dev -
          (dev.td.suspend_latency_ns + dev.td.resume_latency_ns)) ∧
      ((default_suspend_ok dev).1 = true →
        (default_suspend_ok dev).2.td.effective_constraint_ns =
          folded_constraint_ns dev -
            (dev.td.suspend_latency_ns + dev.td.resume_latency_ns) ∧
        (default_suspend_ok dev).2.td.cached_suspend_ok = true)) ∧
    ((default_suspend_ok dev).1 = false →
      (default_suspend_ok dev).2.td.effective_constraint_ns = 0 ∧
      (default_suspend_ok dev).2.td.cached_suspend_ok = false)) := by
  rw [default_suspend_ok_recompute dev hch]
  constructor
  · intro h0 h1 h2
    rw [if_neg h0, if_neg h1, if_neg h2]
    by_cases h3 : folded_constraint_ns dev -
        (dev.td.suspend_latency_ns + dev.td.resume_latency_ns) ≤ 0
    · rw [if_pos h3]
      exact ⟨⟨fun hff => absurd hff (by simp), fun hlt => absurd hlt (by omega)⟩,
        fun hff => absurd hff (by simp)⟩
    · rw [if_neg h3]
      exact ⟨⟨fun _ => by omega, fun _ => rfl⟩, fun _ => ⟨rfl, rfl⟩⟩
  · intro hfalse
    by_cases h0 : dev.qos_resume_latency_us = 0
    · rw [if_pos h0]
      exact ⟨rfl, rfl⟩
    · rw [if_neg h0] at hfalse ⊢
      by_cases h1 : folded_constraint_ns dev =
          PM_QOS_RESUME_LATENCY_NO_CONSTRAINT_NS
      · rw [if_pos h1] at hfalse
        exact absurd hfalse (by simp)
      · rw [if_neg h1] at hfalse ⊢
        by_cases h2 : folded_constraint_ns dev = 0
        · rw [if_pos h2]
          exact ⟨rfl, rfl⟩
        · rw [if_neg h2] at hfalse ⊢
          by_cases h3 : folded_constraint_ns dev -
              (dev.td.suspend_latency_ns + dev.td.resume_latency_ns) ≤ 0
          · rw [if_pos h3]
            exact ⟨rfl, rfl⟩
          · rw [if_neg h3] at hfalse
            exact absurd hfalse (by simp)

theorem C3_witness :
    ((default_suspend_ok dFiniteEx).1 = true) ↔
      0 < folded_constraint_ns dFiniteEx -
        (dFiniteEx.td.suspend_latency_ns + dFiniteEx.td.resume_latency_ns) :=
  ((C3_finite_budget_subtraction dFiniteEx rfl).1 (by decide) (by decide)
    (by decide)).1

/-- C4: a device whose own resume-latency QoS constraint is exactly zero makes
a recomputing `default_suspend_ok` call return false regardless of its
device-tree children, and the effective budget stays 0. -/
theorem C4_zero_constraint_veto (dev : Device)
    (hch : dev.td.constraint_changed = true)
    (h0 : dev.qos_resume_latency_us = 0) :
    (default_suspend_ok dev).1 = false ∧
    (default_suspend_ok dev).2.td.effective_constraint_ns = 0 := by
  rw [default_suspend_ok_recompute dev hch, if_pos h0]
  exact ⟨rfl, rfl⟩

theorem C4_witness :
    (default_suspend_ok dZeroEx).1 = false ∧
    (default_suspend_ok dZeroEx).2.td.effective_constraint_ns = 0 :=
  C4_zero_constraint_veto dZeroEx rfl rfl

/-- C5: `dev_update_qos_constraint` folds a device-tree child into the running
constraint by taking the minimum with the child's contribution — its domain's
already-computed effective budget when it belongs to a domain, its own
resume-latency constraint times 1000 otherwise —, an UNCONSTRAINED
contribution never lowers a (valid-range) running value, and the recomputation
fold over the children is exactly this minimum fold. -/
theorem C5_child_minimum_fold :
    (∀ (ch : ChildDev) (p : Int),
      dev_update_qos_constraint ch p = min (child_contrib ch) p) ∧
    (∀ (ch : ChildDev) (p : Int),
      child_contrib ch = PM_QOS_RESUME_LATENCY_NO_CONSTRAINT_NS →
      p ≤ PM_QOS_RESUME_LATENCY_NO_CONSTRAINT_NS →
      dev_update_qos_constraint ch p = p) ∧
    (∀ dev : Device, dev.ignore_children = false →
      folded_constraint_ns dev =
        dev.children.foldl (fun acc ch => min (child_contrib ch) acc)
          (dev.qos_resume_latency_us * NSEC_PER_USEC)) := by
  have hmin : ∀ (ch : ChildDev) (p : Int),
      dev_update_qos_constraint ch p = min (child_contrib ch) p := by
    intro ch p
    simp only [dev_update_qos_constraint, child_contrib]
    set c := if ch.has_domain_data then ch.effective_constraint_ns
      else ch.qos_resume_latency_us * NSEC_PER_USEC with hc
    rcases le_or_lt p c with h | h
    · rw [if_neg (not_lt.mpr h), min_eq_right h]
    · rw [if_pos h, min_eq_left (le_of_lt h)]
  refine ⟨hmin, fun ch p h1 h2 => ?_, fun dev hig => ?_⟩
  · rw [hmin, h1, min_eq_right h2]
  · simp only [folded_constraint_ns]
    rw [if_neg (by simp [hig])]
    congr 1
    funext acc ch
    exact hmin ch acc

theorem C5_witness :
    dev_update_qos_constraint ⟨false, 0, 7⟩ 5000 = 5000 ∧
    dev_update_qos_constraint ⟨true, PM_QOS_RESUME_LATENCY_NO_CONSTRAINT_NS, 0⟩
      5000 = 5000 :=
  ⟨(C5_child_minimum_fold.1 ⟨false, 0, 7⟩ 5000).trans (by decide),
   C5_child_minimum_fold.2.1 ⟨true, PM_QOS_RESUME_LATENCY_NO_CONSTRAINT_NS, 0⟩
     5000 (by decide) (by decide)⟩

/-- C6: if a recomputing `default_suspend_ok` call finds the device's own
constraint and every folded child contribution to be UNCONSTRAINED, it stores
the UNCONSTRAINED sentinel as the effective budget, sets
`cached_suspend_ok = true`, and returns true. -/
theorem C6_unconstrained_propagation (dev : Device)
    (hch : dev.td.constraint_changed = true)
    (hq : dev.qos_resume_latency_us = PM_QOS_RESUME_LATENCY_NO_CONSTRAINT)
    (hc : ∀ ch ∈ dev.children,
      child_contrib ch = PM_QOS_RESUME_LATENCY_NO_CONSTRAINT_NS) :
    (default_suspend_ok dev).1 = true ∧
    (default_suspend_ok dev).2.td.effective_constraint_ns =
      PM_QOS_RESUME_LATENCY_NO_CONSTRAINT_NS ∧
    (default_suspend_ok dev).2.td.cached_suspend_ok = true := by
  have h0 : ¬ dev.qos_resume_latency_us = 0 := by
    rw [hq]
    decide
  have hfold : folded_constraint_ns dev =
      PM_QOS_RESUME_LATENCY_NO_CONSTRAINT_NS := by
    simp only [folded_constraint_ns, hq]
    by_cases hig : dev.ignore_children
    · rw [if_pos hig]
      rfl
    · rw [if_neg hig]
      exact foldl_dev_update_ncns dev.children hc
  rw [default_suspend_ok_recompute dev hch, if_neg h0, if_pos hfold]
  exact ⟨rfl, rfl, rfl⟩

theorem C6_witness :
    (default_suspend_ok dUnconstrainedEx).1 = true ∧
    (default_suspend_ok dUnconstrainedEx).2.td.effective_constraint_ns =
      PM_QOS_RESUME_LATENCY_NO_CONSTRAINT_NS ∧
    (default_suspend_ok dUnconstrainedEx).2.td.cached_suspend_ok = true :=
  C6_unconstrained_propagation dUnconstrainedEx rfl rfl (by decide)

/-- C7: with the dirty flag clear, `default_suspend_ok` returns the cached
decision and `default_power_down_ok` returns the cached pair, both without
recomputation; and calling either evaluator twice with no intervening
dirty-flag set returns the identical result both times and leaves the record
(hence `effective_constraint_ns` / `max_off_time_ns`) unchanged. -/
theorem C7_cache_stability :
    (∀ dev : Device, dev.td.constraint_changed = false →
      default_suspend_ok dev = (dev.td.cached_suspend_ok, dev)) ∧
    (∀ (g : Genpd) (ps : List Genpd), g.max_off_time_changed = false →
      default_power_down_ok g ps =
        (g.cached_power_down_ok,
         { g with state_idx := g.cached_power_down_state_idx }, ps)) ∧
    (∀ dev : Device,
      (default_suspend_ok (default_suspend_ok dev).2).1 =
        (default_suspend_ok dev).1 ∧
      (default_suspend_ok (default_suspend_ok dev).2).2 =
        (default_suspend_ok dev).2) ∧
    (∀ (g : Genpd) (ps ps2 : List Genpd),
      (default_power_down_ok (default_power_down_ok g ps).2.1 ps2).1 =
        (default_power_down_ok g ps).1 ∧
      (default_power_down_ok (default_power_down_ok g ps).2.1 ps2).2.1 =
        (default_power_down_ok g ps).2.1) := by
  refine ⟨default_suspend_ok_fast, default_power_down_ok_fast, ?_, ?_⟩
  · intro dev
    cases hc : dev.td.constraint_changed with
    | false =>
      rw [default_suspend_ok_fast dev hc]
      dsimp only
      rw [default_suspend_ok_fast dev hc]
      exact ⟨rfl, rfl⟩
    | true =>
      obtain ⟨hflag, hcached⟩ := default_suspend_ok_recompute_post dev hc
      rw [default_suspend_ok_fast _ hflag]
      exact ⟨hcached, rfl⟩
  · intro g ps ps2
    cases hc : g.max_off_time_changed with
    | false =>
      rw [default_power_down_ok_fast g ps hc]
      dsimp only
      rw [default_power_down_ok_fast
        { g with state_idx := g.cached_power_down_state_idx } ps2 hc]
      exact ⟨rfl, rfl⟩
    | true =>
      obtain ⟨hflag, hcached, hidx⟩ :=
        default_power_down_ok_recompute_post g ps hc
      rw [default_power_down_ok_fast _ ps2 hflag]
      refine ⟨hcached, ?_⟩
      dsimp only
      nth_rewrite 1 [← hidx]
      rfl

theorem C7_witness :
    default_suspend_ok dCachedEx = (dCachedEx.td.cached_suspend_ok, dCachedEx) :=
  C7_cache_stability.1 dCachedEx rfl

/-- C10: with `ignore_children` set, a recomputing `default_suspend_ok` call
folds in no device-tree child: the decision and the resulting timing data are
the same for any children list, depending only on the device's own constraint
and latencies. -/
theorem C10_ignore_children (dev : Device)
    (hch : dev.td.constraint_changed = true)
    (hig : dev.ignore_children = true) (cs : List ChildDev) :
    (default_suspend_ok { dev with children := cs }).1 =
      (default_suspend_ok dev).1 ∧
    (default_suspend_ok { dev with children := cs }).2.td =
      (default_suspend_ok dev).2.td := by
  have hfold : folded_constraint_ns { dev with children := cs } =
      folded_constraint_ns dev := by
    simp only [folded_constraint_ns]
    rw [if_pos (by exact hig), if_pos (by exact hig)]
  rw [default_suspend_ok_recompute dev hch,
    default_suspend_ok_recompute { dev with children := cs } hch, hfold]
  dsimp only
  split_ifs <;> exact ⟨rfl, rfl⟩

theorem C10_witness :
    (default_suspend_ok { dIgnoreEx with children := [⟨false, 0, 5⟩] }).1 =
      (default_suspend_ok dIgnoreEx).1 ∧
    (default_suspend_ok { dIgnoreEx with children := [⟨false, 0, 5⟩] }).2.td =
      (default_suspend_ok dIgnoreEx).2.td :=
  C10_ignore_children dIgnoreEx rfl rfl [⟨false, 0, 5⟩]

end DomainGovernor
